import Mathlib

/-
Verification of the LaunchGen pipeline (server/services/openai.ts,
server/routes.ts, server/storage.ts, shared/schema.ts) against its
natural-language specification.

The embedding models JavaScript values with the inductive `Js`
(JS `undefined` is `Js.undef`), object field access with `Js.get`,
JS truthiness with `Js.truthy`, and `a || b` with `jsOr`.  Stateful
storage code is modelled with explicit state passing over a `Storage`
record; clock readings (`new Date()` / `Date.now()`) are passed as
explicit millisecond arguments.
-/

namespace LaunchGen

/-- Model of a JavaScript/JSON value.  `undef` models JS `undefined`
(an absent object field reads as `undef`). -/
inductive Js where
  | undef : Js
  | null : Js
  | bool : Bool → Js
  | num : Int → Js
  | str : String → Js
  | arr : List Js → Js
  | obj : List (String × Js) → Js
deriving Repr

/-- Field lookup in an assoc-list of object fields (first match wins). -/
def getField : List (String × Js) → String → Js
  | [], _ => Js.undef
  | (k', v) :: rest, k => if k' = k then v else getField rest k

/-- JS property access `o[k]`: `undefined` when the key is absent or the
receiver is not an object. -/
def Js.get : Js → String → Js
  | .obj fields, k => getField fields k
  | _, _ => Js.undef

/-- JS array indexing `a[i]`: `undefined` out of range or on non-arrays. -/
def Js.idx : Js → Nat → Js
  | .arr xs, i => xs.getD i Js.undef
  | _, _ => Js.undef

/-- The keys of a JS object (empty for non-objects). -/
def jsKeys : Js → List String
  | .obj fields => fields.map (fun f => f.1)
  | _ => []

/-- JS truthiness: `undefined`, `null`, `false`, `0`, and `""` are falsy;
every array and object is truthy. -/
def Js.truthy : Js → Bool
  | Js.undef => false
  | .null => false
  | .bool b => b
  | .num n => n != 0
  | .str s => s != ""
  | .arr _ => true
  | .obj _ => true

/-- JS `a || b`. -/
def jsOr (a b : Js) : Js := if a.truthy then a else b

/-- Is the value an array? (JS `Array.isArray`.) -/
def Js.isArr : Js → Bool
  | .arr _ => true
  | _ => false

/-- Is the value a string? -/
def Js.isStr : Js → Bool
  | .str _ => true
  | _ => false

mutual

/-- JS `String(v)` coercion as used by `Array.prototype.join`
(`null`/`undefined` become the empty string inside `join`; a nested
array stringifies as its comma-join). -/
def jsToString : Js → String
  | Js.undef => ""
  | .null => ""
  | .bool b => if b then "true" else "false"
  | .num n => toString n
  | .str s => s
  | .arr xs => jsListToString xs
  | .obj _ => "[object Object]"

/-- Comma-join of the stringified elements (JS default `Array.join`). -/
def jsListToString : List Js → String
  | [] => ""
  | [x] => jsToString x
  | x :: y :: rest => jsToString x ++ "," ++ jsListToString (y :: rest)

end

/-- JS `tools.join(", ")` from the stage-3 transform. -/
def joinTools (xs : List Js) : String :=
  String.intercalate ", " (xs.map jsToString)

/-- The per-task part of the stage-3 `transformedPlan` expression in
`finalizeWithO3` (openai.ts): `task.task || task.description`,
`task.time || task.timeEstimate`,
`Array.isArray(task.tools) ? task.tools.join(", ") : task.tool`,
with `day`, `kpi`, `postDraft` copied through. -/
def transformDailyTask (task : Js) : Js :=
  Js.obj [
    ("day", task.get "day"),
    ("description", jsOr (task.get "task") (task.get "description")),
    ("timeEstimate", jsOr (task.get "time") (task.get "timeEstimate")),
    ("tool", match task.get "tools" with
      | .arr ts => .str (joinTools ts)
      | _ => task.get "tool"),
    ("kpi", task.get "kpi"),
    ("postDraft", task.get "postDraft")
  ]

/-- The per-week part of the stage-3 transform: `week.dailyTasks.map (...)`
throws (returns `none`) when `dailyTasks` is not an array;
`week.redditTips || []`. -/
def transformWeek (week : Js) : Option Js :=
  match week.get "dailyTasks" with
  | .arr tasks => some (Js.obj [
      ("title", week.get "title"),
      ("goal", week.get "goal"),
      ("dailyTasks", .arr (tasks.map transformDailyTask)),
      ("redditTips", jsOr (week.get "redditTips") (.arr []))
    ])
  | _ => none

/-- Maps a fallible transform over a list, failing when any element
fails (a JS `.map` whose callback throws aborts the whole map). -/
def mapThrow (f : Js → Option Js) : List Js → Option (List Js)
  | [] => some []
  | x :: xs =>
    match f x, mapThrow f xs with
    | some y, some ys => some (y :: ys)
    | _, _ => none

/-- The full `transformedPlan` expression of `finalizeWithO3`
(openai.ts lines 291-312): `finalPlan.weeklyPlan.map (...)` throws
(returns `none`) when `weeklyPlan` is not an array;
`finalPlan.recommendedTools || []`, `finalPlan.kpis || []`,
`overview` and `nextActions` copied through. -/
def transformedPlan (finalPlan : Js) : Option Js :=
  match finalPlan.get "weeklyPlan" with
  | .arr weeks =>
    match mapThrow transformWeek weeks with
    | some ws => some (Js.obj [
        ("overview", finalPlan.get "overview"),
        ("weeklyPlan", .arr ws),
        ("recommendedTools", jsOr (finalPlan.get "recommendedTools") (.arr [])),
        ("kpis", jsOr (finalPlan.get "kpis") (.arr [])),
        ("nextActions", finalPlan.get "nextActions")
      ])
    | none => none
  | _ => none

/-- `finalizeWithO3` after the service call: the input models
`response.choices[0].message.content` (`none` = no content).  Missing
content and a transform error are both wrapped into the single error
kind "Failed to finalize plan: ..." by the stage's catch clause;
there is no separate schema-validation check. -/
def finalizeWithO3Run (content : Option Js) : Except String Js :=
  match content with
  | none => .error "Failed to finalize plan: No content received from O3"
  | some c =>
    match transformedPlan c with
    | some r => .ok r
    | none => .error "Failed to finalize plan: TypeError: map of undefined"

/-! ### Input validation (shared/schema.ts: businessInfoSchema) -/

/-- A raw request body for the generate endpoints: each field may be
absent (`none`). -/
structure BusinessInfoInput where
  businessIdea : Option String
  industry : Option String
  targetMarket : Option String
  timeCommitment : Option String
  budget : Option String
  additionalDetails : Option String
deriving Repr, DecidableEq

/-- A validated BusinessInfo (shared/schema.ts: the zod object with the
defaults applied). -/
structure BusinessInfo where
  businessIdea : String
  industry : String
  targetMarket : String
  timeCommitment : String
  budget : String
  additionalDetails : Option String
deriving Repr, DecidableEq

/-- `businessInfoSchema.parse`: businessIdea min length 10, industry and
targetMarket min length 2, timeCommitment defaults to "10 hours/week",
budget defaults to "$0 (Zero-budget)", additionalDetails optional. -/
def parseBusinessInfo (i : BusinessInfoInput) : Except String BusinessInfo :=
  match i.businessIdea, i.industry, i.targetMarket with
  | some idea, some ind, some tm =>
    if idea.length < 10 then .error "Business idea must be at least 10 characters"
    else if ind.length < 2 then .error "Industry is required"
    else if tm.length < 2 then .error "Target market is required"
    else .ok {
      businessIdea := idea
      industry := ind
      targetMarket := tm
      timeCommitment := i.timeCommitment.getD "10 hours/week"
      budget := i.budget.getD "$0 (Zero-budget)"
      additionalDetails := i.additionalDetails }
  | _, _, _ => .error "Required"

/-! ### Pipeline orchestrator (openai.ts: generateLaunchPlan) -/

/-- The oracles for the three stage functions.  Each models the
corresponding stage function's outcome (content parsed from the external
service, or the stage's own wrapped error message): stage 2 receives the
raw plan and yields `{ proofreadPlan, postDrafts }`; stage 3 receives
both and yields the final plan. -/
structure StageOracle where
  stage1 : Except String Js
  stage2 : Js → Except String (Js × Js)
  stage3 : Js → Js → Except String Js

/-- One progress signal of the orchestrator (the per-stage console
progress lines of `generateLaunchPlan`, its completion line, and the
error line of its catch clause). -/
inductive Signal where
  | stage1Start
  | stage2Start
  | stage3Start
  | delivered
  | errorSignal
deriving Repr, DecidableEq

/-- The orchestrator's catch clause wraps any stage error. -/
def orchWrap (e : String) : String :=
  "Failed to generate launch plan: " ++ e

/-- Outcome of one orchestrator run: the result, the progress signals in
emission order, and the stage numbers invoked in call order. -/
structure PipelineRun where
  result : Except String Js
  signals : List Signal
  calls : List Nat
deriving Repr

/-- `generateLaunchPlan` (openai.ts lines 320-337): strictly sequential
stages wrapped in one try/catch; a progress signal is emitted before each
stage call, `delivered` after stage 3 succeeds, and the catch clause
emits the error signal and rethrows the wrapped error. -/
def generateLaunchPlanRun (o : StageOracle) : PipelineRun :=
  match o.stage1 with
  | .error e => ⟨.error (orchWrap e), [.stage1Start, .errorSignal], [1]⟩
  | .ok rawPlan =>
    match o.stage2 rawPlan with
    | .error e => ⟨.error (orchWrap e), [.stage1Start, .stage2Start, .errorSignal], [1, 2]⟩
    | .ok pr =>
      match o.stage3 pr.1 pr.2 with
      | .error e =>
        ⟨.error (orchWrap e),
         [.stage1Start, .stage2Start, .stage3Start, .errorSignal], [1, 2, 3]⟩
      | .ok plan =>
        ⟨.ok plan,
         [.stage1Start, .stage2Start, .stage3Start, .delivered], [1, 2, 3]⟩

/-! ### Persistence (server/storage.ts; shared/schema.ts: launchPlans)

Timestamps (`new Date().toISOString()` / `Date.now()`) are modelled as
the underlying millisecond counts (`Nat`); the ISO rendering of a
millisecond count is injective and order-preserving, so timestamp
comparisons are comparisons of these numbers. -/

/-- A stored launch-plan row (shared/schema.ts: launchPlans). -/
structure LaunchPlan where
  id : Nat
  userId : Option Nat
  businessInfo : String
  generatedPlan : Js
  createdAt : Nat
  updatedAt : Nat
  shareToken : Option String
  isEditable : Bool
deriving Repr

/-- Insert payload for `createLaunchPlan` (optional columns may be
omitted, as in `InsertLaunchPlan`). -/
structure InsertLaunchPlan where
  userId : Option Nat := none
  businessInfo : String
  generatedPlan : Js
  createdAt : Nat
  updatedAt : Nat
  shareToken : Option String := none
  isEditable : Option Bool := none

/-- A `Partial<InsertLaunchPlan>` update payload: `none` means the key is
absent from the update object. -/
structure PlanUpdates where
  userId : Option (Option Nat) := none
  businessInfo : Option String := none
  generatedPlan : Option Js := none
  createdAt : Option Nat := none
  updatedAt : Option Nat := none
  shareToken : Option (Option String) := none
  isEditable : Option Bool := none

/-- The storage state: the stored rows plus the next id to assign
(MemStorage's `launchPlans` map and `currentPlanId`; a serial column for
DatabaseStorage). -/
structure Storage where
  plans : List LaunchPlan
  nextId : Nat
deriving Repr

/-- Find a stored plan by id. -/
def findPlan (s : Storage) (id : Nat) : Option LaunchPlan :=
  s.plans.find? (fun p => p.id == id)

/-- `createLaunchPlan`: assigns the next id, defaults `userId` and
`shareToken` to null and `isEditable` to true, and stores the row. -/
def createLaunchPlan (s : Storage) (ins : InsertLaunchPlan) :
    LaunchPlan × Storage :=
  let plan : LaunchPlan := {
    id := s.nextId
    userId := ins.userId
    businessInfo := ins.businessInfo
    generatedPlan := ins.generatedPlan
    createdAt := ins.createdAt
    updatedAt := ins.updatedAt
    shareToken := ins.shareToken
    isEditable := ins.isEditable.getD true }
  (plan, ⟨s.plans ++ [plan], s.nextId + 1⟩)

/-- The spread `{ ...plan, ...updates, updatedAt: new Date().toISOString() }`
of `updateLaunchPlan`: update keys that are present replace the stored
fields, and `updatedAt` is always set to the current time. -/
def applyUpdates (plan : LaunchPlan) (u : PlanUpdates) (now : Nat) :
    LaunchPlan :=
  { id := plan.id
    userId := u.userId.getD plan.userId
    businessInfo := u.businessInfo.getD plan.businessInfo
    generatedPlan := u.generatedPlan.getD plan.generatedPlan
    createdAt := u.createdAt.getD plan.createdAt
    updatedAt := now
    shareToken := u.shareToken.getD plan.shareToken
    isEditable := u.isEditable.getD plan.isEditable }

/-- `MemStorage.updateLaunchPlan` (storage.ts lines 97-108): looks the
plan up by id (returning `undefined` when absent), applies the updates
with `updatedAt := now`, and stores the result back under the same id. -/
def memUpdateLaunchPlan (s : Storage) (id : Nat) (u : PlanUpdates)
    (now : Nat) : Option LaunchPlan × Storage :=
  match findPlan s id with
  | none => (none, s)
  | some plan =>
    let updated := applyUpdates plan u now
    (some updated,
     ⟨s.plans.map (fun p => if p.id == id then updated else p), s.nextId⟩)

/-- Does some other stored plan (different id) already hold this share
token?  (The `unique` constraint on `launch_plans.share_token` declared
in shared/schema.ts.) -/
def tokenTaken (s : Storage) (id : Nat) (t : String) : Bool :=
  s.plans.any (fun p => p.id != id && p.shareToken == some t)

/-- `DatabaseStorage.updateLaunchPlan` (storage.ts lines 227-237): the
UPDATE throws (`error`) when it would violate the unique constraint on
`share_token`; otherwise it behaves like the in-memory update, returning
`none` when no row matches the id. -/
def dbUpdateLaunchPlan (s : Storage) (id : Nat) (u : PlanUpdates)
    (now : Nat) : Except String (Option LaunchPlan × Storage) :=
  match u.shareToken with
  | some (some t) =>
    if tokenTaken s id t then .error "unique constraint violation: share_token"
    else .ok (memUpdateLaunchPlan s id u now)
  | _ => .ok (memUpdateLaunchPlan s id u now)

/-! ### Routes (server/routes.ts) -/

/-- Response of POST /api/generate-plan. -/
inductive GenResponse where
  | ok (plan : Js) (planId : Nat)
  | fail (error : String)
deriving Repr

/-- POST /api/generate-plan (routes.ts lines 28-54): validates the body
with `businessInfoSchema.parse` (a zod failure is caught before any
service call), runs the pipeline, and stores the plan only after the
pipeline succeeded.  Returns the response, the resulting storage state
and the list of pipeline stages invoked. -/
def handleGeneratePlan (o : StageOracle) (input : BusinessInfoInput)
    (s : Storage) (now : Nat) : GenResponse × Storage × List Nat :=
  match parseBusinessInfo input with
  | .error e => (.fail e, s, [])
  | .ok info =>
    let run := generateLaunchPlanRun o
    match run.result with
    | .error e => (.fail e, s, run.calls)
    | .ok plan =>
      let (saved, s') := createLaunchPlan s {
        businessInfo := toString (repr info)
        generatedPlan := plan
        createdAt := now
        updatedAt := now }
      (.ok plan saved.id, s', run.calls)

/-- A base-36 digit (`Nat.toString(36)` alphabet). -/
def base36Digit (n : Nat) : Char :=
  "0123456789abcdefghijklmnopqrstuvwxyz".toList.getD n '0'

/-- Digits of `n` in base 36, most significant first (fuel-driven so the
definition is structurally recursive; `fuel = n + 1` always suffices). -/
def natToBase36Go : Nat → Nat → List Char → List Char
  | 0, _, acc => acc
  | fuel + 1, n, acc =>
    let acc' := base36Digit (n % 36) :: acc
    if n < 36 then acc' else natToBase36Go fuel (n / 36) acc'

/-- `Date.now().toString(36)`. -/
def natToBase36 (n : Nat) : String :=
  String.mk (natToBase36Go (n + 1) n [])

/-- The share-token generator of POST /api/plan/:id/share:
`Math.random().toString(36).substring(2) + Date.now().toString(36)`.
`randPart` models the base-36 fraction digits of the `Math.random()`
draw; the token is a pure function of the draw and the clock. -/
def generateShareToken (randPart : String) (now : Nat) : String :=
  randPart ++ natToBase36 now

/-- Response of POST /api/plan/:id/share. -/
inductive ShareResponse where
  | ok (shareToken : String) (shareUrl : String)
  | notFound
  | fail (error : String)
deriving Repr, DecidableEq

/-- POST /api/plan/:id/share (routes.ts lines 183-214) against the
active DatabaseStorage: generates the token, updates the row with
`{ shareToken, updatedAt: now }`, answers 404 when the plan is unknown
and 400 when the storage update throws. -/
def handleShareDb (s : Storage) (planId : Nat) (randPart : String)
    (now : Nat) : ShareResponse × Storage :=
  let token := generateShareToken randPart now
  match dbUpdateLaunchPlan s planId
      { shareToken := some (some token), updatedAt := some now } now with
  | .error _ => (.fail "Failed to generate share token", s)
  | .ok (none, s') => (.notFound, s')
  | .ok (some _, s') => (.ok token ("/share/" ++ token), s')

/-- POST /api/plan/:id/share against MemStorage (no unique-constraint
check in the in-memory map). -/
def handleShareMem (s : Storage) (planId : Nat) (randPart : String)
    (now : Nat) : ShareResponse × Storage :=
  let token := generateShareToken randPart now
  match memUpdateLaunchPlan s planId
      { shareToken := some (some token), updatedAt := some now } now with
  | (none, s') => (.notFound, s')
  | (some _, s') => (.ok token ("/share/" ++ token), s')

/-- PUT /api/plan/:id (routes.ts lines 137-180), storage effect only:
replaces `generatedPlan` and bumps `updatedAt` through
`updateLaunchPlan`. -/
def handleEditPlan (s : Storage) (planId : Nat) (newPlan : Js)
    (now : Nat) : Option LaunchPlan × Storage :=
  memUpdateLaunchPlan s planId
    { generatedPlan := some newPlan, updatedAt := some now } now

/-! ### Concrete sample values -/

/-- A stage-two style daily task whose day is numeric and whose tools
are given as a list, as the upstream stages may produce. -/
def numericDayTask : Js := .obj [
  ("day", .num 5),
  ("task", .str "Post launch thread"),
  ("time", .str "2h"),
  ("tools", .arr [.str "Reddit", .str "Canva"]),
  ("kpi", .str "1 post live")]

/-- A small upstream plan containing `numericDayTask`. -/
def numericDayPlan : Js := .obj [
  ("overview", .str "Plan overview ending with a Day-30 KPI"),
  ("weeklyPlan", .arr [.obj [
    ("title", .str "Week 1: Foundation"),
    ("goal", .str "Ship the MVP"),
    ("dailyTasks", .arr [numericDayTask]),
    ("redditTips", .arr [.str "tip"])]]),
  ("recommendedTools", .arr []),
  ("kpis", .arr [])]

/-- Field `k` of the first daily task of the first week of a plan. -/
def firstTaskField (p : Js) (k : String) : Js :=
  ((((p.get "weeklyPlan").idx 0).get "dailyTasks").idx 0).get k

/-- An upstream plan whose `weeklyPlan` is an empty array and which has
no `overview` key. -/
def noOverviewPlan : Js := .obj [("weeklyPlan", .arr [])]

/-- An upstream plan with an overview but an empty weekly plan. -/
def emptyWeeklyPlan : Js := .obj [
  ("overview", .str "Overview with a Day-30 outcome"),
  ("weeklyPlan", .arr [])]

/-! ### C1: per-task normalization of the reconciler -/

/-- C1 counterexample: feeding the finalization transform a plan whose
first daily task carries the numeric day 5 yields a FinalPlan whose
first daily task still has the numeric day 5, not a string label of the
form "D<n>" — the transform copies `day` through unchanged. -/
theorem C1_counterexample :
    (transformedPlan numericDayPlan).map (fun r => firstTaskField r "day")
      = some (.num 5)
    ∧ Js.isStr (Js.num 5) = false :=
  ⟨rfl, rfl⟩

/-- C1 amended: the stage-3 transform normalizes every daily task to the
six fixed fields day, description, timeEstimate, tool, kpi, postDraft;
the description is the upstream `task` field when truthy and otherwise
`description`; a list-valued `tools` becomes the single string joining
the entries with ", " and a non-list leaves the `tool` field; `kpi` is
the single KPI field; but `day` is copied through unchanged (the "D<n>"
conversion is requested only in the prompt, not enforced). -/
theorem C1_amended (task : Js) :
    jsKeys (transformDailyTask task)
      = ["day", "description", "timeEstimate", "tool", "kpi", "postDraft"]
    ∧ (transformDailyTask task).get "description"
        = jsOr (task.get "task") (task.get "description")
    ∧ (transformDailyTask task).get "kpi" = task.get "kpi"
    ∧ (transformDailyTask task).get "day" = task.get "day"
    ∧ (∀ ts, task.get "tools" = .arr ts →
        (transformDailyTask task).get "tool" = .str (joinTools ts))
    ∧ ((task.get "tools").isArr = false →
        (transformDailyTask task).get "tool" = task.get "tool") := by
  have hred : (transformDailyTask task).get "tool"
      = (match task.get "tools" with
         | .arr ts => Js.str (joinTools ts)
         | _ => task.get "tool") := rfl
  refine ⟨rfl, rfl, rfl, rfl, ?_, ?_⟩
  · intro ts hts
    rw [hred, hts]
  · intro hts
    rw [hred]
    cases h : task.get "tools" with
    | arr ts => rw [h] at hts; simp [Js.isArr] at hts
    | undef => rfl
    | null => rfl
    | bool b => rfl
    | num n => rfl
    | str s => rfl
    | obj fs => rfl

/-- C1 witness: the amended theorem evaluated on `numericDayTask`. -/
theorem C1_witness :
    jsKeys (transformDailyTask numericDayTask)
      = ["day", "description", "timeEstimate", "tool", "kpi", "postDraft"]
    ∧ (transformDailyTask numericDayTask).get "tool"
      = .str "Reddit, Canva" := by
  refine ⟨(C1_amended numericDayTask).1, ?_⟩
  have h := (C1_amended numericDayTask).2.2.2.2.1
    [.str "Reddit", .str "Canva"] rfl
  rw [h]
  rfl

/-! ### C2: required-field reconciliation -/

/-- C2 counterexample: on an upstream output without an `overview` key
the reconciler's result has no overview value (the required key is
effectively missing), and on an upstream output without a `weeklyPlan`
the reconciler does not substitute an empty collection — the stage
throws (`none`) instead. -/
theorem C2_counterexample :
    (transformedPlan noOverviewPlan).map (fun r => r.get "overview")
      = some Js.undef
    ∧ transformedPlan (.obj []) = none :=
  ⟨rfl, rfl⟩

/-- C2 amended: empty-collection substitution happens exactly for
`recommendedTools`, `kpis` and each week's `redditTips` (when the
upstream value is falsy); `overview` is copied through unchanged and may
be absent in the result; an upstream output whose `weeklyPlan` (or a
week whose `dailyTasks`) is not an array makes the stage fail instead of
receiving an empty collection. -/
theorem C2_amended :
    (∀ p r, transformedPlan p = some r →
      ((p.get "recommendedTools").truthy = false →
        r.get "recommendedTools" = .arr [])
      ∧ ((p.get "kpis").truthy = false → r.get "kpis" = .arr [])
      ∧ r.get "overview" = p.get "overview")
    ∧ (∀ p, (p.get "weeklyPlan").isArr = false → transformedPlan p = none)
    ∧ (∀ w r, transformWeek w = some r →
        ((w.get "redditTips").truthy = false → r.get "redditTips" = .arr []))
    ∧ (∀ w, (w.get "dailyTasks").isArr = false → transformWeek w = none) := by
  refine ⟨?_, ?_, ?_, ?_⟩
  · intro p r h
    rw [transformedPlan] at h
    split at h
    · split at h
      · injection h with h'
        subst h'
        refine ⟨?_, ?_, rfl⟩
        · intro hf
          show jsOr (p.get "recommendedTools") (.arr []) = .arr []
          rw [jsOr, hf]
          rfl
        · intro hf
          show jsOr (p.get "kpis") (.arr []) = .arr []
          rw [jsOr, hf]
          rfl
      · exact absurd h (by simp)
    · exact absurd h (by simp)
  · intro p h
    rw [transformedPlan]
    cases hp : p.get "weeklyPlan" with
    | arr ws => rw [hp] at h; simp [Js.isArr] at h
    | undef => rfl
    | null => rfl
    | bool b => rfl
    | num n => rfl
    | str s => rfl
    | obj fs => rfl
  · intro w r h
    rw [transformWeek] at h
    split at h
    · injection h with h'
      subst h'
      intro hf
      show jsOr (w.get "redditTips") (.arr []) = .arr []
      rw [jsOr, hf]
      rfl
    · exact absurd h (by simp)
  · intro w h
    rw [transformWeek]
    cases hw : w.get "dailyTasks" with
    | arr ts => rw [hw] at h; simp [Js.isArr] at h
    | undef => rfl
    | null => rfl
    | bool b => rfl
    | num n => rfl
    | str s => rfl
    | obj fs => rfl

/-- C2 witness: the amended theorem evaluated on `noOverviewPlan` (its
`recommendedTools` and `kpis` are absent, hence substituted by `[]`). -/
theorem C2_witness :
    ((noOverviewPlan.get "recommendedTools").truthy = false)
    ∧ (transformedPlan noOverviewPlan).map (fun r => r.get "recommendedTools")
        = some (.arr [])
    ∧ transformedPlan (.str "not an object") = none := by
  refine ⟨rfl, ?_, (C2_amended.2.1 (.str "not an object") rfl)⟩
  have h := (C2_amended.1 noOverviewPlan
    (Js.obj [
      ("overview", Js.undef),
      ("weeklyPlan", .arr []),
      ("recommendedTools", .arr []),
      ("kpis", .arr []),
      ("nextActions", Js.undef)]) rfl).1 rfl
  show some ((Js.obj [
      ("overview", Js.undef),
      ("weeklyPlan", .arr []),
      ("recommendedTools", .arr []),
      ("kpis", .arr []),
      ("nextActions", Js.undef)]).get "recommendedTools") = some (.arr [])
  rw [h]

/-! ### C3: failure taxonomy of the finalization stage -/

/-- C3 counterexample: a reconciled result with an empty weekly-plan
list does not make the finalization stage fail — `finalizeWithO3`
returns it as a success, so no SchemaValidationFailure exists for this
case. -/
theorem C3_counterexample :
    finalizeWithO3Run (some emptyWeeklyPlan)
      = .ok (.obj [
          ("overview", .str "Overview with a Day-30 outcome"),
          ("weeklyPlan", .arr []),
          ("recommendedTools", .arr []),
          ("kpis", .arr []),
          ("nextActions", Js.undef)]) :=
  rfl

/-- C3 amended: the finalization stage has a single failure kind — every
error (missing service content, or a transform error) is surfaced as the
one wrapped message "Failed to finalize plan: ..."; there is no distinct
schema-validation failure, and in particular an empty weekly-plan list
is accepted as a success. -/
theorem C3_amended :
    (∀ content e, finalizeWithO3Run content = .error e →
      ("Failed to finalize plan: ".data).isPrefixOf e.data = true)
    ∧ (finalizeWithO3Run (some emptyWeeklyPlan)).isOk = true := by
  refine ⟨?_, rfl⟩
  intro content e h
  match content with
  | none =>
    injection h with h'
    subst h'
    decide
  | some c =>
    rw [finalizeWithO3Run] at h
    split at h
    · exact absurd h (by simp)
    · injection h with h'
      subst h'
      decide

/-- C3 witness: the amended theorem at the concrete no-content input. -/
theorem C3_witness :
    ("Failed to finalize plan: ".data).isPrefixOf
      ("Failed to finalize plan: No content received from O3".data) = true :=
  C3_amended.1 none
    "Failed to finalize plan: No content received from O3" rfl

/-! ### C9: idempotence of the reconciliation transform -/

/-- `a || b` collapses when applied twice against a truthy default. -/
theorem jsOr_absorb (a b : Js) (hb : b.truthy = true) :
    jsOr (jsOr a b) b = jsOr a b := by
  rw [jsOr, jsOr]
  cases ha : a.truthy with
  | true => simp [jsOr, ha]
  | false => simp [jsOr, hb]

/-- The per-task transform is idempotent: its output carries only the
canonical field names, so a second pass changes nothing. -/
theorem transformDailyTask_idem (t : Js) :
    transformDailyTask (transformDailyTask t) = transformDailyTask t := rfl

/-- The per-week transform is idempotent on its own outputs. -/
theorem transformWeek_idem (w w' : Js) (h : transformWeek w = some w') :
    transformWeek w' = some w' := by
  rw [transformWeek] at h
  split at h
  · next ts hts =>
    injection h with h'
    subst h'
    have hmap : (ts.map transformDailyTask).map transformDailyTask
        = ts.map transformDailyTask := by
      rw [List.map_map]
      exact List.map_congr_left (fun t _ => transformDailyTask_idem t)
    have hor : jsOr (jsOr (w.get "redditTips") (.arr [])) (.arr [])
        = jsOr (w.get "redditTips") (.arr []) :=
      jsOr_absorb _ _ rfl
    show some (Js.obj [
        ("title", w.get "title"),
        ("goal", w.get "goal"),
        ("dailyTasks", .arr ((ts.map transformDailyTask).map transformDailyTask)),
        ("redditTips", jsOr (jsOr (w.get "redditTips") (.arr [])) (.arr []))])
      = some (Js.obj [
        ("title", w.get "title"),
        ("goal", w.get "goal"),
        ("dailyTasks", .arr (ts.map transformDailyTask)),
        ("redditTips", jsOr (w.get "redditTips") (.arr []))])
    rw [hmap, hor]
  · exact absurd h (by simp)

/-- `mapThrow transformWeek` is idempotent on its own outputs. -/
theorem mapThrow_transformWeek_idem (ws ws' : List Js)
    (h : mapThrow transformWeek ws = some ws') :
    mapThrow transformWeek ws' = some ws' := by
  induction ws generalizing ws' with
  | nil =>
    rw [mapThrow] at h
    injection h with h'
    subst h'
    rfl
  | cons w rest ih =>
    rw [mapThrow] at h
    split at h
    · next y ys hy hys =>
      injection h with h'
      subst h'
      rw [mapThrow, transformWeek_idem w y hy, ih ys hys]
    · exact absurd h (by simp)

/-- Closed form of `transformedPlan` when both maps succeed. -/
theorem transformedPlan_build (p : Js) (weeks ws : List Js)
    (hw : p.get "weeklyPlan" = .arr weeks)
    (hm : mapThrow transformWeek weeks = some ws) :
    transformedPlan p = some (Js.obj [
      ("overview", p.get "overview"),
      ("weeklyPlan", .arr ws),
      ("recommendedTools", jsOr (p.get "recommendedTools") (.arr [])),
      ("kpis", jsOr (p.get "kpis") (.arr [])),
      ("nextActions", p.get "nextActions")]) := by
  rw [transformedPlan, hw]
  show (match mapThrow transformWeek weeks with
        | some ws => some (Js.obj [
            ("overview", p.get "overview"),
            ("weeklyPlan", .arr ws),
            ("recommendedTools", jsOr (p.get "recommendedTools") (.arr [])),
            ("kpis", jsOr (p.get "kpis") (.arr [])),
            ("nextActions", p.get "nextActions")])
        | none => none) = _
  rw [hm]

/-- C9: the stage-3 reconciliation transform is idempotent — applied to
any of its own outputs (an already-normalized FinalPlan) it reproduces
that output exactly. -/
theorem C9_reconciler_idempotent (p r : Js)
    (h : transformedPlan p = some r) : transformedPlan r = some r := by
  rw [transformedPlan] at h
  split at h
  · split at h
    · next ws hws =>
      injection h with h'
      subst h'
      have hmt : mapThrow transformWeek ws = some ws :=
        mapThrow_transformWeek_idem _ ws hws
      rw [transformedPlan_build (Js.obj [
          ("overview", p.get "overview"),
          ("weeklyPlan", .arr ws),
          ("recommendedTools", jsOr (p.get "recommendedTools") (.arr [])),
          ("kpis", jsOr (p.get "kpis") (.arr [])),
          ("nextActions", p.get "nextActions")]) ws ws rfl hmt]
      show some (Js.obj [
          ("overview", p.get "overview"),
          ("weeklyPlan", .arr ws),
          ("recommendedTools",
            jsOr (jsOr (p.get "recommendedTools") (.arr [])) (.arr [])),
          ("kpis", jsOr (jsOr (p.get "kpis") (.arr [])) (.arr [])),
          ("nextActions", p.get "nextActions")])
        = some (Js.obj [
          ("overview", p.get "overview"),
          ("weeklyPlan", .arr ws),
          ("recommendedTools", jsOr (p.get "recommendedTools") (.arr [])),
          ("kpis", jsOr (p.get "kpis") (.arr [])),
          ("nextActions", p.get "nextActions")])
      rw [jsOr_absorb (p.get "recommendedTools") (.arr []) rfl,
        jsOr_absorb (p.get "kpis") (.arr []) rfl]
    · exact absurd h (by simp)
  · exact absurd h (by simp)

/-- C9 witness: idempotence evaluated on the concrete `numericDayPlan`
(whose normalized output is spelled out on both sides). -/
theorem C9_witness :
    transformedPlan (.obj [
      ("overview", .str "Plan overview ending with a Day-30 KPI"),
      ("weeklyPlan", .arr [.obj [
        ("title", .str "Week 1: Foundation"),
        ("goal", .str "Ship the MVP"),
        ("dailyTasks", .arr [.obj [
          ("day", .num 5),
          ("description", .str "Post launch thread"),
          ("timeEstimate", .str "2h"),
          ("tool", .str "Reddit, Canva"),
          ("kpi", .str "1 post live"),
          ("postDraft", Js.undef)]]),
        ("redditTips", .arr [.str "tip"])]]),
      ("recommendedTools", .arr []),
      ("kpis", .arr []),
      ("nextActions", Js.undef)])
    = some (.obj [
      ("overview", .str "Plan overview ending with a Day-30 KPI"),
      ("weeklyPlan", .arr [.obj [
        ("title", .str "Week 1: Foundation"),
        ("goal", .str "Ship the MVP"),
        ("dailyTasks", .arr [.obj [
          ("day", .num 5),
          ("description", .str "Post launch thread"),
          ("timeEstimate", .str "2h"),
          ("tool", .str "Reddit, Canva"),
          ("kpi", .str "1 post live"),
          ("postDraft", Js.undef)]]),
        ("redditTips", .arr [.str "tip"])]]),
      ("recommendedTools", .arr []),
      ("kpis", .arr []),
      ("nextActions", Js.undef)]) :=
  C9_reconciler_idempotent numericDayPlan _ rfl

/-! ### C4 and C5: orchestration, progress signals, no partial persistence -/

/-- A stage oracle on which every stage succeeds. -/
def okOracle : StageOracle where
  stage1 := .ok numericDayPlan
  stage2 := fun raw => .ok (raw, .arr [])
  stage3 := fun pp _ => .ok pp

/-- A stage oracle whose stage-2 call fails (with the stage's own
wrapped message). -/
def stage2FailOracle : StageOracle where
  stage1 := .ok numericDayPlan
  stage2 := fun _ => .error "Failed to proofread and generate posts: API error"
  stage3 := fun pp _ => .ok pp

/-- A parseable request body. -/
def validInput : BusinessInfoInput :=
  ⟨some "A subscription box for artisanal coffee beans",
   some "E-commerce", some "Coffee enthusiasts aged 25-40",
   none, none, none⟩

/-- C5: progress-signal ordering.  A successful run emits exactly
[stage-1-start, stage-2-start, stage-3-start, delivered]; a run whose
stage 2 fails emits exactly [stage-1-start, stage-2-start] followed by
the terminal error signal, and never a stage-3 signal. -/
theorem C5_progress_signals (o o' : StageOracle) :
    ((generateLaunchPlanRun o).result.isOk = true →
      (generateLaunchPlanRun o).signals
        = [.stage1Start, .stage2Start, .stage3Start, .delivered])
    ∧ (∀ raw e, o'.stage1 = .ok raw → o'.stage2 raw = .error e →
        (generateLaunchPlanRun o').signals
          = [.stage1Start, .stage2Start, .errorSignal]
        ∧ (generateLaunchPlanRun o').result = .error (orchWrap e)
        ∧ Signal.stage3Start ∉ (generateLaunchPlanRun o').signals) := by
  constructor
  · intro hok
    cases h1 : o.stage1 with
    | error e =>
      simp only [generateLaunchPlanRun, h1] at hok
      exact Bool.noConfusion hok
    | ok raw =>
      cases h2 : o.stage2 raw with
      | error e =>
        simp only [generateLaunchPlanRun, h1, h2] at hok
        exact Bool.noConfusion hok
      | ok pr =>
        cases h3 : o.stage3 pr.1 pr.2 with
        | error e =>
          simp only [generateLaunchPlanRun, h1, h2, h3] at hok
          exact Bool.noConfusion hok
        | ok plan => simp only [generateLaunchPlanRun, h1, h2, h3]
  · intro raw e h1 h2
    have hrun : generateLaunchPlanRun o'
        = ⟨.error (orchWrap e),
           [.stage1Start, .stage2Start, .errorSignal], [1, 2]⟩ := by
      simp only [generateLaunchPlanRun, h1, h2]
    rw [hrun]
    refine ⟨rfl, rfl, ?_⟩
    show Signal.stage3Start ∉
      [Signal.stage1Start, Signal.stage2Start, Signal.errorSignal]
    decide

/-- C5 witness: the two signal sequences evaluated on the concrete
oracles. -/
theorem C5_witness :
    (generateLaunchPlanRun okOracle).signals
      = [.stage1Start, .stage2Start, .stage3Start, .delivered]
    ∧ (generateLaunchPlanRun stage2FailOracle).signals
      = [.stage1Start, .stage2Start, .errorSignal]
    ∧ Signal.stage3Start ∉ (generateLaunchPlanRun stage2FailOracle).signals := by
  have h := (C5_progress_signals okOracle stage2FailOracle).2 numericDayPlan
    "Failed to proofread and generate posts: API error" rfl rfl
  exact ⟨(C5_progress_signals okOracle stage2FailOracle).1 rfl, h.1, h.2.2⟩

/-- C4: when any pipeline stage fails, the generate route stores
nothing (the persistence layer is unchanged) and answers with the
raised error; in particular when stage 2 fails, stage 3 is never
invoked (the invoked stages are exactly [1, 2]) and the stage-2 error
is raised to the caller wrapped in the orchestrator's single kind. -/
theorem C4_failure_aborts_pipeline (o : StageOracle)
    (input : BusinessInfoInput) (s : Storage) (now : Nat) :
    (∀ e, (parseBusinessInfo input).isOk = true →
      (generateLaunchPlanRun o).result = .error e →
      handleGeneratePlan o input s now
        = (.fail e, s, (generateLaunchPlanRun o).calls))
    ∧ (∀ raw e, (parseBusinessInfo input).isOk = true →
        o.stage1 = .ok raw → o.stage2 raw = .error e →
        handleGeneratePlan o input s now
          = (.fail (orchWrap e), s, [1, 2])) := by
  constructor
  · intro e hp hr
    cases hpp : parseBusinessInfo input with
    | error e' => rw [hpp] at hp; exact Bool.noConfusion hp
    | ok info => simp only [handleGeneratePlan, hpp, hr]
  · intro raw e hp h1 h2
    cases hpp : parseBusinessInfo input with
    | error e' => rw [hpp] at hp; exact Bool.noConfusion hp
    | ok info =>
      have hrun : generateLaunchPlanRun o
          = ⟨.error (orchWrap e),
             [.stage1Start, .stage2Start, .errorSignal], [1, 2]⟩ := by
        simp only [generateLaunchPlanRun, h1, h2]
      simp only [handleGeneratePlan, hpp, hrun]

/-- C4 witness: stage 2 failing on a concrete request leaves the
concrete store untouched, and stage 3 is never invoked. -/
theorem C4_witness :
    handleGeneratePlan stage2FailOracle validInput ⟨[], 1⟩ 0
      = (.fail (orchWrap "Failed to proofread and generate posts: API error"),
         ⟨[], 1⟩, [1, 2]) :=
  (C4_failure_aborts_pipeline stage2FailOracle validInput ⟨[], 1⟩ 0).2
    numericDayPlan "Failed to proofread and generate posts: API error"
    rfl rfl rfl

/-! ### C6: input validation before any service call -/

/-- A request body whose idea is long enough and whose industry is
non-empty but only one character. -/
def oneCharIndustryInput : BusinessInfoInput :=
  ⟨some "1234567890", some "X", some "YY", none, none, none⟩

/-- A request body whose businessIdea has 9 characters. -/
def nineCharIdeaInput : BusinessInfoInput :=
  ⟨some "123456789", some "E-commerce", some "Coffee fans", none, none, none⟩

/-- C6 counterexample: a request whose idea is 10 characters and whose
industry and target market are non-empty is rejected — the claim's
acceptance condition ("industry and target-market non-empty") does not
match the code, which requires at least 2 characters for each. -/
theorem C6_counterexample :
    (parseBusinessInfo oneCharIndustryInput).isOk = false
    ∧ ("1234567890" : String).length ≥ 10
    ∧ ("X" : String) ≠ ""
    ∧ ("YY" : String) ≠ "" :=
  ⟨rfl, by decide, by decide, by decide⟩

/-- C6 amended: a fully-present BusinessInfo body is accepted exactly
when the idea is at least 10 characters and industry and target market
are each at least 2 characters; omitted time-commitment and budget
default to the fixed labels; and any request the validator rejects is
answered with a failure before any stage of the generative service is
called (zero stage calls) and without touching the store. -/
theorem C6_amended :
    (∀ b ind tm tc bu ad,
      (parseBusinessInfo ⟨some b, some ind, some tm, tc, bu, ad⟩).isOk = true
        ↔ (10 ≤ b.length ∧ 2 ≤ ind.length ∧ 2 ≤ tm.length))
    ∧ (∀ b ind tm ad r,
        parseBusinessInfo ⟨some b, some ind, some tm, none, none, ad⟩ = .ok r →
        r.timeCommitment = "10 hours/week" ∧ r.budget = "$0 (Zero-budget)")
    ∧ (∀ o i s now, (parseBusinessInfo i).isOk = false →
        ∃ e, handleGeneratePlan o i s now = (.fail e, s, [])) := by
  refine ⟨?_, ?_, ?_⟩
  · intro b ind tm tc bu ad
    show (if b.length < 10
          then (Except.error "Business idea must be at least 10 characters"
                : Except String BusinessInfo)
          else if ind.length < 2 then .error "Industry is required"
          else if tm.length < 2 then .error "Target market is required"
          else .ok ⟨b, ind, tm, tc.getD "10 hours/week",
                    bu.getD "$0 (Zero-budget)", ad⟩).isOk = true
        ↔ (10 ≤ b.length ∧ 2 ≤ ind.length ∧ 2 ≤ tm.length)
    split
    · next hb =>
      exact ⟨fun h => Bool.noConfusion h, fun h => by omega⟩
    · next hb =>
      split
      · next hi =>
        exact ⟨fun h => Bool.noConfusion h, fun h => by omega⟩
      · next hi =>
        split
        · next ht =>
          exact ⟨fun h => Bool.noConfusion h, fun h => by omega⟩
        · next ht =>
          exact ⟨fun _ => by omega, fun _ => rfl⟩
  · intro b ind tm ad r h
    have h' : (if b.length < 10
          then (Except.error "Business idea must be at least 10 characters"
                : Except String BusinessInfo)
          else if ind.length < 2 then .error "Industry is required"
          else if tm.length < 2 then .error "Target market is required"
          else .ok ⟨b, ind, tm, "10 hours/week", "$0 (Zero-budget)", ad⟩)
        = .ok r := h
    split at h'
    · exact absurd h' (by simp)
    · split at h'
      · exact absurd h' (by simp)
      · split at h'
        · exact absurd h' (by simp)
        · injection h' with h''
          subst h''
          exact ⟨rfl, rfl⟩
  · intro o i s now h
    cases hp : parseBusinessInfo i with
    | ok v => rw [hp] at h; exact Bool.noConfusion h
    | error e => exact ⟨e, by simp only [handleGeneratePlan, hp]⟩

/-- C6 witness: the 9-character idea is rejected, with defaults and the
zero-call guarantee evaluated at concrete inputs. -/
theorem C6_witness :
    (parseBusinessInfo nineCharIdeaInput).isOk = false
    ∧ (parseBusinessInfo validInput).isOk = true
    ∧ (handleGeneratePlan stage2FailOracle nineCharIdeaInput ⟨[], 1⟩ 0).2
        = (⟨[], 1⟩, []) := by
  refine ⟨?_, ?_, ?_⟩
  · cases hok : (parseBusinessInfo nineCharIdeaInput).isOk with
    | false => rfl
    | true =>
      have h := (C6_amended.1 "123456789" "E-commerce" "Coffee fans"
        none none none).mp hok
      exact absurd h.1 (by decide)
  · exact (C6_amended.1 "A subscription box for artisanal coffee beans"
      "E-commerce" "Coffee enthusiasts aged 25-40" none none none).mpr
      (by refine ⟨?_, ?_, ?_⟩ <;> decide)
  · obtain ⟨e, he⟩ := C6_amended.2.2 stage2FailOracle nineCharIdeaInput
      ⟨[], 1⟩ 0 rfl
    rw [he]

/-! ### Storage lemmas shared by the persistence claims -/

/-- Replacing the found element under the same id keeps it findable. -/
theorem find_map_replace (l : List LaunchPlan) (id : Nat) (newP : LaunchPlan)
    (hnew : (newP.id == id) = true)
    (h : (l.find? (fun q => q.id == id)).isSome = true) :
    (l.map (fun q => if q.id == id then newP else q)).find?
      (fun q => q.id == id) = some newP := by
  induction l with
  | nil => simp at h
  | cons q rest ih =>
    by_cases hq : (q.id == id) = true
    · rw [List.map_cons, if_pos hq]
      simp [List.find?_cons, hnew]
    · have hq' : (q.id == id) = false := by simpa using hq
      rw [List.map_cons, if_neg hq]
      simp only [List.find?_cons, hq'] at h ⊢
      exact ih h

/-- Closed form of a successful in-memory update, and the updated row
remains findable under its id. -/
theorem findPlan_update (s : Storage) (id : Nat) (u : PlanUpdates)
    (now : Nat) (p : LaunchPlan) (h : findPlan s id = some p) :
    memUpdateLaunchPlan s id u now
      = (some (applyUpdates p u now),
         ⟨s.plans.map (fun q =>
            if q.id == id then applyUpdates p u now else q), s.nextId⟩)
    ∧ findPlan ⟨s.plans.map (fun q =>
          if q.id == id then applyUpdates p u now else q), s.nextId⟩ id
      = some (applyUpdates p u now) := by
  have h' : s.plans.find? (fun q => q.id == id) = some p := h
  have hpid : (p.id == id) = true := by
    have hx := List.find?_some h'
    simpa using hx
  constructor
  · simp only [memUpdateLaunchPlan, h]
  · have hmem : ((s.plans.find? (fun q => q.id == id)).isSome) = true := by
      rw [show s.plans.find? (fun q => q.id == id) = some p from h]
      rfl
    exact find_map_replace s.plans id (applyUpdates p u now) hpid hmem


/-! ### C7: updatedAt across sequences of edits -/

/-- Runs a sequence of edit operations (replacement plan, clock reading
in ms) against one plan id, collecting the `updatedAt` value observed
after each successful edit. -/
def runEdits : Storage → Nat → List (Js × Nat) → Storage × List Nat
  | s, _, [] => (s, [])
  | s, id, (g, t) :: rest =>
    match handleEditPlan s id g t with
    | (none, s') => runEdits s' id rest
    | (some p, s') =>
      ((runEdits s' id rest).1, p.updatedAt :: (runEdits s' id rest).2)

/-- A stored plan created (and last updated) at millisecond 5. -/
def basePlan : LaunchPlan :=
  { id := 1, userId := none, businessInfo := "info",
    generatedPlan := .obj [], createdAt := 5, updatedAt := 5,
    shareToken := none, isEditable := true }

/-- A store holding only `basePlan`. -/
def baseStore : Storage := ⟨[basePlan], 2⟩

/-- C7 counterexample: an edit whose clock reading falls in the same
millisecond as the previous update (both 5) succeeds but leaves
`updatedAt` equal to its previous value — not strictly greater. -/
theorem C7_counterexample :
    (handleEditPlan baseStore 1 (.obj []) 5).1.map (fun p => p.updatedAt)
      = some 5
    ∧ basePlan.updatedAt = 5
    ∧ ¬ (5 : Nat) > 5 :=
  ⟨rfl, rfl, by omega⟩

/-- C7 amended: each successful edit sets `updatedAt` to that edit's
clock reading, so the observed `updatedAt` values of an edit sequence
are exactly the clock readings: they are non-decreasing whenever the
clock is, and the value after an edit strictly exceeds the value before
it exactly when that edit's clock reading does (edits within the same
millisecond leave it unchanged). -/
theorem C7_amended (s : Storage) (id : Nat) (p : LaunchPlan)
    (edits : List (Js × Nat)) (h : findPlan s id = some p) :
    (runEdits s id edits).2 = edits.map (fun e => e.2)
    ∧ (∀ g t p', (handleEditPlan s id g t).1 = some p' →
        p'.updatedAt = t
        ∧ (p.updatedAt ≤ t → p.updatedAt ≤ p'.updatedAt)
        ∧ (p.updatedAt < t → p.updatedAt < p'.updatedAt)) := by
  constructor
  · induction edits generalizing s p with
    | nil => rfl
    | cons e rest ih =>
      obtain ⟨g, t⟩ := e
      have hu := findPlan_update s id
        { generatedPlan := some g, updatedAt := some t } t p h
      have hedit : handleEditPlan s id g t
          = (some (applyUpdates p
              { generatedPlan := some g, updatedAt := some t } t),
             ⟨s.plans.map (fun q => if q.id == id
                then applyUpdates p
                  { generatedPlan := some g, updatedAt := some t } t
                else q), s.nextId⟩) := hu.1
      simp only [runEdits, hedit]
      rw [ih _ _ hu.2]
      rfl
  · intro g t p' hp'
    have hu := findPlan_update s id
      { generatedPlan := some g, updatedAt := some t } t p h
    have heq1 : (handleEditPlan s id g t).1
        = some (applyUpdates p
            { generatedPlan := some g, updatedAt := some t } t) := by
      rw [show handleEditPlan s id g t = _ from hu.1]
    rw [heq1] at hp'
    injection hp' with hp''
    subst hp''
    exact ⟨rfl, fun hle => hle, fun hlt => hlt⟩

/-- C7 witness: two edits at strictly increasing clock times 7 and 9 on
the concrete store: the observed updatedAt trace is [7, 9]. -/
theorem C7_witness :
    (runEdits baseStore 1 [(.obj [], 7), (.obj [], 9)]).2 = [7, 9]
    ∧ basePlan.updatedAt < 7 :=
  ⟨(C7_amended baseStore 1 basePlan [(.obj [], 7), (.obj [], 9)] rfl).1,
   by decide⟩

/-! ### C8: share-token uniqueness and overwrite -/

/-- Inversion of a successful share issuance against DatabaseStorage:
the returned token is the freshly generated one, no other stored plan
held it (the declared unique constraint did not fire), and the updated
row — which now carries exactly this token — is stored and findable
under its id. -/
theorem handleShareDb_ok (s : Storage) (id : Nat) (r : String) (n : Nat)
    (t u : String) (s' : Storage)
    (h : handleShareDb s id r n = (.ok t u, s')) :
    t = generateShareToken r n
    ∧ tokenTaken s id t = false
    ∧ ∃ p p', findPlan s id = some p
        ∧ p' = applyUpdates p
            { shareToken := some (some t), updatedAt := some n } n
        ∧ p' ∈ s'.plans
        ∧ findPlan s' id = some p' := by
  have hsh : handleShareDb s id r n
      = (match dbUpdateLaunchPlan s id
          { shareToken := some (some (generateShareToken r n)),
            updatedAt := some n } n with
         | .error _ => (ShareResponse.fail "Failed to generate share token", s)
         | .ok (none, s1) => (ShareResponse.notFound, s1)
         | .ok (some _, s1) =>
           (ShareResponse.ok (generateShareToken r n)
             ("/share/" ++ generateShareToken r n), s1)) := rfl
  have hdb : dbUpdateLaunchPlan s id
      { shareToken := some (some (generateShareToken r n)),
        updatedAt := some n } n
      = (if tokenTaken s id (generateShareToken r n)
         then .error "unique constraint violation: share_token"
         else .ok (memUpdateLaunchPlan s id
           { shareToken := some (some (generateShareToken r n)),
             updatedAt := some n } n)) := rfl
  rw [hsh, hdb] at h
  by_cases htk : tokenTaken s id (generateShareToken r n) = true
  · rw [if_pos htk] at h
    exact absurd h (by simp)
  · rw [if_neg htk] at h
    have htk' : tokenTaken s id (generateShareToken r n) = false := by
      simpa using htk
    cases hf : findPlan s id with
    | none =>
      have hmem : memUpdateLaunchPlan s id
          { shareToken := some (some (generateShareToken r n)),
            updatedAt := some n } n = (none, s) := by
        simp only [memUpdateLaunchPlan, hf]
      rw [hmem] at h
      exact absurd h (by simp)
    | some p =>
      have hu := findPlan_update s id
        { shareToken := some (some (generateShareToken r n)),
          updatedAt := some n } n p hf
      rw [hu.1] at h
      injection h with h1 h2
      injection h1 with ht hurl
      subst h2
      have hpid : (p.id == id) = true := by
        have h' : s.plans.find? (fun q => q.id == id) = some p := hf
        have hx := List.find?_some h'
        simpa using hx
      have hpm : p ∈ s.plans := by
        have h' : s.plans.find? (fun q => q.id == id) = some p := hf
        exact List.mem_of_find?_eq_some h'
      refine ⟨ht.symm, ?_, ?_⟩
      · rw [← ht]
        exact htk'
      · refine ⟨p, applyUpdates p
            { shareToken := some (some t), updatedAt := some n } n,
          rfl, rfl, ?_, ?_⟩
        · rw [← ht]
          refine List.mem_map.mpr ⟨p, hpm, ?_⟩
          rw [if_pos hpid]
        · rw [← ht]
          exact hu.2

/-- C8: against the storage layer (whose `share_token` column is
declared unique), two successful share issuances for two distinct plan
ids never return the same token — a colliding generated token makes the
second update fail instead of being stored — and a successful issuance
overwrites the plan's stored token with the returned one, so each plan
holds at most the one token just issued. -/
theorem C8_share_tokens :
    (∀ s id1 id2 r1 n1 r2 n2 t1 u1 t2 u2 s1 s2,
      id1 ≠ id2 →
      handleShareDb s id1 r1 n1 = (.ok t1 u1, s1) →
      handleShareDb s1 id2 r2 n2 = (.ok t2 u2, s2) →
      t1 ≠ t2)
    ∧ (∀ s id r n t u s' p, findPlan s id = some p →
        handleShareDb s id r n = (.ok t u, s') →
        ∃ p', findPlan s' id = some p' ∧ p'.shareToken = some t) := by
  constructor
  · intro s id1 id2 r1 n1 r2 n2 t1 u1 t2 u2 s1 s2 hne h1 h2 heq
    obtain ⟨ht1, htk1, p1, p1', hf1, hp1', hmem1, hfind1⟩ :=
      handleShareDb_ok s id1 r1 n1 t1 u1 s1 h1
    obtain ⟨ht2, htk2, p2, p2', hf2, hp2', hmem2, hfind2⟩ :=
      handleShareDb_ok s1 id2 r2 n2 t2 u2 s2 h2
    have hp1id : p1.id = id1 := by
      have h' : s.plans.find? (fun q => q.id == id1) = some p1 := hf1
      have hx := List.find?_some h'
      simpa using hx
    have hp1tok : p1'.shareToken = some t1 := by rw [hp1']; rfl
    have hp1'id : p1'.id = id1 := by rw [hp1']; exact hp1id
    have : tokenTaken s1 id2 t2 = true := by
      rw [tokenTaken, List.any_eq_true]
      refine ⟨p1', hmem1, ?_⟩
      rw [Bool.and_eq_true]
      constructor
      · rw [hp1'id]
        simp [hne]
      · rw [hp1tok, heq]
        simp
    rw [htk2] at this
    exact Bool.noConfusion this
  · intro s id r n t u s' p hf h
    obtain ⟨ht, htk, q, q', hfq, hq', hmem, hfind⟩ :=
      handleShareDb_ok s id r n t u s' h
    exact ⟨q', hfind, by rw [hq']; rfl⟩

/-- A second stored plan, without a share token. -/
def secondPlan : LaunchPlan :=
  { id := 2, userId := none, businessInfo := "info2",
    generatedPlan := .obj [], createdAt := 6, updatedAt := 6,
    shareToken := none, isEditable := true }

/-- A store holding two plans with ids 1 and 2. -/
def shareStore : Storage := ⟨[basePlan, secondPlan], 3⟩

/-- The store after issuing a share token for plan 1. -/
def shareStoreA : Storage := (handleShareDb shareStore 1 "aaa" 100).2

/-- The store after then issuing a share token for plan 2. -/
def shareStoreB : Storage := (handleShareDb shareStoreA 2 "bbb" 100).2

/-- C8 witness: two concrete successful issuances for plans 1 and 2
return distinct tokens. -/
theorem C8_witness :
    generateShareToken "aaa" 100 ≠ generateShareToken "bbb" 100 :=
  C8_share_tokens.1 shareStore 1 2 "aaa" 100 "bbb" 100
    (generateShareToken "aaa" 100)
    ("/share/" ++ generateShareToken "aaa" 100)
    (generateShareToken "bbb" 100)
    ("/share/" ++ generateShareToken "bbb" 100)
    shareStoreA shareStoreB (by decide) rfl rfl

/-! ### C10: share issuance bumps updatedAt without editing content -/

/-- C10: issuing a share token for an existing plan sets its updatedAt
to the current clock reading and installs the token, while leaving
generatedPlan, businessInfo, createdAt, id, isEditable (and userId)
unchanged — updatedAt moves even though no content was edited. -/
theorem C10_share_updates_timestamp (s : Storage) (id : Nat)
    (p : LaunchPlan) (r : String) (now : Nat)
    (h : findPlan s id = some p) :
    ∃ p', findPlan (handleShareMem s id r now).2 id = some p'
      ∧ p'.updatedAt = now
      ∧ p'.shareToken = some (generateShareToken r now)
      ∧ p'.generatedPlan = p.generatedPlan
      ∧ p'.businessInfo = p.businessInfo
      ∧ p'.createdAt = p.createdAt
      ∧ p'.id = p.id
      ∧ p'.isEditable = p.isEditable
      ∧ p'.userId = p.userId := by
  have hu := findPlan_update s id
    { shareToken := some (some (generateShareToken r now)),
      updatedAt := some now } now p h
  have hsm : handleShareMem s id r now
      = (.ok (generateShareToken r now)
            ("/share/" ++ generateShareToken r now),
         ⟨s.plans.map (fun q => if q.id == id
            then applyUpdates p
              { shareToken := some (some (generateShareToken r now)),
                updatedAt := some now } now
            else q), s.nextId⟩) := by
    show (match memUpdateLaunchPlan s id
            { shareToken := some (some (generateShareToken r now)),
              updatedAt := some now } now with
          | (none, s1) => (ShareResponse.notFound, s1)
          | (some _, s1) =>
            (ShareResponse.ok (generateShareToken r now)
              ("/share/" ++ generateShareToken r now), s1)) = _
    rw [hu.1]
  refine ⟨applyUpdates p
      { shareToken := some (some (generateShareToken r now)),
        updatedAt := some now } now,
    ?_, rfl, rfl, rfl, rfl, rfl, rfl, rfl, rfl⟩
  rw [hsm]
  exact hu.2

/-- C10 witness: on the concrete store, sharing plan 1 at millisecond 42
moves updatedAt from 5 to 42 and leaves the generated plan unchanged. -/
theorem C10_witness :
    ((findPlan (handleShareMem baseStore 1 "zz" 42).2 1).map
        (fun p => p.updatedAt) = some 42)
    ∧ ((findPlan (handleShareMem baseStore 1 "zz" 42).2 1).map
        (fun p => p.generatedPlan) = some basePlan.generatedPlan)
    ∧ basePlan.updatedAt = 5 := by
  obtain ⟨p', hfind, hupd, htok, hgen, hrest⟩ :=
    C10_share_updates_timestamp baseStore 1 basePlan "zz" 42 rfl
  simp only [hfind, Option.map_some']
  exact ⟨by rw [hupd], by rw [hgen], rfl⟩

end LaunchGen
